import Mathlib

/-!
Shallow embedding of the promotion-classification and normalization pipeline
of the epic-games-free-games service.  The definitions below are translated
from the Go sources: the per-element body of the fetchFreeGames loop, the
formatDate closure with its timezone fallback, and the Discord webhook
payload builder.  Times are modelled as epoch seconds (Int); a resolved
location is modelled as a fixed offset together with its abbreviation
string.  The external IANA timezone database (consulted by
time.LoadLocation) is modelled as an oracle of type String to Option
Location, since it lives outside the repository.
-/

namespace EpicFree

/-- A resolved time location: abbreviation used by the MST format verb, and
the offset from UTC in seconds.  Corresponds to the result of
time.LoadLocation or time.FixedZone in the Go source. -/
structure Location where
  name : String
  offsetSeconds : Int
deriving DecidableEq, Repr

/-- The fixed fallback zone built by time.FixedZone of the string UTC+8 and
8*60*60 seconds, used by the Go source whenever a timezone string cannot be
resolved. -/
def utc8Zone : Location := { name := "UTC+8", offsetSeconds := 8 * 60 * 60 }

/-- Character-list test of a string beginning with a literal, embedding
strings.HasPrefix for the ASCII prefixes involved. -/
def strStartsWith (s pre : String) : Bool := pre.data.isPrefixOf s.data

/-- Character-list drop, used to remove a matched literal from the front. -/
def strDropChars (s : String) (n : Nat) : String := String.mk (s.data.drop n)

/-- Embedding of strings.TrimPrefix from the Go standard library. -/
def trimPre (s pre : String) : String :=
  if strStartsWith s pre then strDropChars s pre.length else s

/-- Scan a decimal integer from a character list, as the fmt verb used by
the Go source does: one or more leading digits, ignoring whatever follows. -/
def scanDigits (l : List Char) : Option Int :=
  let ds := l.takeWhile Char.isDigit
  if ds.isEmpty then none
  else some (ds.foldl (fun acc c => acc * 10 + ((c.toNat : Int) - 48)) 0)

/-- The signed 64-bit range check of strconv.ParseInt, applied by the
scanning verb when storing into a Go int: a value outside the range is a
range error, not a success. -/
def fitsGoInt (n : Int) : Option Int :=
  if -(2 ^ 63) ≤ n ∧ n ≤ 2 ^ 63 - 1 then some n else none

/-- Embedding of fmt.Sscanf with a single decimal verb into a Go int, as
used on the timezone offset remainder: skip leading non-newline blanks,
accept an optional sign, scan a digit run from the front of the string
(trailing characters are ignored and do not cause failure), and fail with
a range error when the scanned value does not fit a signed 64-bit
integer. -/
def scanIntFromStart (s : String) : Option Int :=
  match (s.data.dropWhile fun c =>
      c == ' ' || c == '\t' || c == '\x0b' || c == '\x0c' || c == '\r') with
  | '+' :: rest => (scanDigits rest).bind fitsGoInt
  | '-' :: rest => ((scanDigits rest).map (fun n => -n)).bind fitsGoInt
  | l => (scanDigits l).bind fitsGoInt

/-- Embedding of the location resolution inside the formatDate closure of
fetchFreeGames: try the IANA database oracle; on failure, a string starting
with UTC or GMT has its prefix trimmed and the remainder scanned as an hour
offset, and anything else falls back to the fixed UTC+8 zone. -/
def resolveLocation (iana : String → Option Location) (timezone : String) : Location :=
  match iana timezone with
  | some loc => loc
  | none =>
      if strStartsWith timezone "UTC" || strStartsWith timezone "GMT" then
        let offsetStr := trimPre (trimPre timezone "UTC") "GMT"
        if offsetStr == "" then { name := "UTC", offsetSeconds := 0 }
        else
          match scanIntFromStart offsetStr with
          | some offsetHours => { name := timezone, offsetSeconds := offsetHours * 60 * 60 }
          | none => utc8Zone
      else utc8Zone

/-- Embedding of the simpler location resolution used by the estimated-date
branch of fetchFreeGames: time.LoadLocation, and on any failure directly the
fixed UTC+8 zone (no UTC or GMT offset parsing on this path). -/
def resolveLocationSimple (iana : String → Option Location) (timezone : String) : Location :=
  match iana timezone with
  | some loc => loc
  | none => utc8Zone

/-- Proleptic Gregorian conversion from days since 1970-01-01 to a
year-month-day triple, the calendar used by the Go time package when
formatting. -/
def daysToCivil (z0 : Int) : Int × Int × Int :=
  let z := z0 + 719468
  let era := Int.fdiv z 146097
  let doe := z - era * 146097
  let yoe := Int.fdiv (doe - Int.fdiv doe 1460 + Int.fdiv doe 36524 - Int.fdiv doe 146096) 365
  let y := yoe + era * 400
  let doy := doe - (365 * yoe + Int.fdiv yoe 4 - Int.fdiv yoe 100)
  let mp := Int.fdiv (5 * doy + 2) 153
  let d := doy - Int.fdiv (153 * mp + 2) 5 + 1
  let m := mp + (if mp < 10 then 3 else -9)
  (if m ≤ 2 then y + 1 else y, m, d)

/-- Proleptic Gregorian conversion from a year-month-day triple to days
since 1970-01-01.  The formula is linear in the day argument, so an
out-of-range day normalizes exactly the way the Go time.Date constructor
normalizes it. -/
def civilToDays (y0 m d : Int) : Int :=
  let y := if m ≤ 2 then y0 - 1 else y0
  let era := Int.fdiv y 400
  let yoe := y - era * 400
  let doy := Int.fdiv (153 * (m + (if 2 < m then -3 else 9)) + 2) 5 + d - 1
  let doe := yoe * 365 + Int.fdiv yoe 4 - Int.fdiv yoe 100 + doy
  era * 146097 + doe - 719468

/-- Two-digit zero padding used by the month, day, hour, minute and second
verbs of the Go format string. -/
def pad2 (n : Int) : String := if n < 10 then "0" ++ toString n else toString n

/-- Four-digit zero padding used by the year verb of the Go format string. -/
def pad4 (n : Int) : String :=
  if n < 10 then "000" ++ toString n
  else if n < 100 then "00" ++ toString n
  else if n < 1000 then "0" ++ toString n
  else toString n

/-- Embedding of rendering an instant in a location with the Go layout
string 2006-01-02 15:04:05 MST: convert the epoch instant to local civil
time using the fixed offset and append the zone abbreviation. -/
def renderInstant (loc : Location) (t : Int) : String :=
  let localSecs := t + loc.offsetSeconds
  let day := Int.fdiv localSecs 86400
  let tod := Int.emod localSecs 86400
  let c := daysToCivil day
  pad4 c.1 ++ "-" ++ pad2 c.2.1 ++ "-" ++ pad2 c.2.2 ++ " " ++
    pad2 (Int.fdiv tod 3600) ++ ":" ++ pad2 (Int.emod (Int.fdiv tod 60) 60) ++ ":" ++
    pad2 (Int.emod tod 60) ++ " " ++ loc.name

/-- Embedding of the Go AddDate call with a day count: take the civil date
of the instant in the location, add the days to the day field, and rebuild
the instant with the same time of day (time.Date normalizes the overflowed
day field through the calendar). -/
def goAddDate (loc : Location) (t : Int) (days : Int) : Int :=
  let localSecs := t + loc.offsetSeconds
  let c := daysToCivil (Int.fdiv localSecs 86400)
  civilToDays c.1 c.2.1 (c.2.2 + days) * 86400 + Int.emod localSecs 86400 - loc.offsetSeconds

/-- Leap year rule of the proleptic Gregorian calendar, as in the Go time
package. -/
def isLeapYear (y : Int) : Bool :=
  (Int.emod y 4 == 0 && Int.emod y 100 != 0) || Int.emod y 400 == 0

/-- Number of days in a month, used for range validation during parsing. -/
def daysInMonth (y m : Int) : Int :=
  if m == 2 then (if isLeapYear y then 29 else 28)
  else if m == 4 || m == 6 || m == 9 || m == 11 then 30
  else 31

/-- Parse exactly two digits from a character list. -/
def digit2 : List Char → Option (Int × List Char)
  | c1 :: c2 :: rest =>
      if c1.isDigit && c2.isDigit then
        some ((((c1.toNat - 48) * 10 + (c2.toNat - 48) : Nat) : Int), rest)
      else none
  | _ => none

/-- Parse exactly four digits from a character list. -/
def digit4 : List Char → Option (Int × List Char)
  | c1 :: c2 :: c3 :: c4 :: rest =>
      if c1.isDigit && c2.isDigit && c3.isDigit && c4.isDigit then
        some ((((c1.toNat - 48) * 1000 + (c2.toNat - 48) * 100 +
                (c3.toNat - 48) * 10 + (c4.toNat - 48) : Nat) : Int), rest)
      else none
  | _ => none

/-- Consume one expected character from the front of a character list. -/
def expectChar (c : Char) : List Char → Option (List Char)
  | x :: rest => if x == c then some rest else none
  | [] => none

/-- Consume an optional fractional-seconds part: a dot must be followed by
at least one digit; the digits are discarded, matching truncation of the
sub-second part in the embedding. -/
def skipFraction : List Char → Option (List Char)
  | '.' :: rest =>
      let ds := rest.takeWhile Char.isDigit
      if ds.isEmpty then none else some (rest.drop ds.length)
  | l => some l

/-- Parse a separator character followed by two digits. -/
def parseTwoAfter (c : Char) (l : List Char) : Option (Int × List Char) :=
  match expectChar c l with
  | none => none
  | some l1 => digit2 l1

/-- Parse the date part of an RFC 3339 timestamp: four year digits and two
dash-separated two-digit fields. -/
def parseDatePart (l : List Char) : Option (Int × Int × Int × List Char) :=
  match digit4 l with
  | none => none
  | some (y, l1) =>
      match parseTwoAfter '-' l1 with
      | none => none
      | some (mo, l2) =>
          match parseTwoAfter '-' l2 with
          | none => none
          | some (d, l3) => some (y, mo, d, l3)

/-- Parse the clock part of an RFC 3339 timestamp: three colon-separated
two-digit fields. -/
def parseClockPart (l : List Char) : Option (Int × Int × Int × List Char) :=
  match digit2 l with
  | none => none
  | some (h, l1) =>
      match parseTwoAfter ':' l1 with
      | none => none
      | some (mi, l2) =>
          match parseTwoAfter ':' l2 with
          | none => none
          | some (s, l3) => some (h, mi, s, l3)

/-- Parse the numeric timezone suffix of an RFC 3339 timestamp after its
sign: two hour digits, a colon, two minute digits, end of input. -/
def parseOffsetTail (sign : Int) (l : List Char) : Option Int :=
  match digit2 l with
  | none => none
  | some (zh, l1) =>
      match parseTwoAfter ':' l1 with
      | none => none
      | some (zm, l2) =>
          if l2.isEmpty ∧ zh ≤ 23 ∧ zm ≤ 59 then some (sign * (zh * 3600 + zm * 60))
          else none

/-- Parse the timezone suffix of an RFC 3339 timestamp: the letter Z for
UTC, or a signed hour-minute offset consuming the rest of the input. -/
def parseZone : List Char → Option Int
  | ['Z'] => some 0
  | '+' :: rest => parseOffsetTail 1 rest
  | '-' :: rest => parseOffsetTail (-1) rest
  | _ => none

/-- Embedding of time.Parse with the RFC 3339 layout: a full
year-month-day, the letter T, a clock time, an optional fraction, then Z or
a signed hour-minute offset, with calendar range validation.  The result is
the epoch instant in seconds; failure is none. -/
def parseRFC3339 (str : String) : Option Int :=
  match parseDatePart str.data with
  | none => none
  | some (y, mo, d, l1) =>
      match expectChar 'T' l1 with
      | none => none
      | some l2 =>
          match parseClockPart l2 with
          | none => none
          | some (h, mi, s, l3) =>
              match skipFraction l3 with
              | none => none
              | some l4 =>
                  match parseZone l4 with
                  | none => none
                  | some off =>
                      if 1 ≤ mo ∧ mo ≤ 12 ∧ 1 ≤ d ∧ d ≤ daysInMonth y mo ∧
                          h ≤ 23 ∧ mi ≤ 59 ∧ s ≤ 59 then
                        some (civilToDays y mo d * 86400 + h * 3600 + mi * 60 + s - off)
                      else none

/-- Embedding of the formatDate closure of fetchFreeGames: parse the
upstream timestamp as RFC 3339, returning the input unchanged on failure;
on success resolve the timezone (with the UTC or GMT offset fallback) and
render the instant there. -/
def formatDate (iana : String → Option Location) (timezone : String) (dateStr : String) : String :=
  match parseRFC3339 dateStr with
  | none => dateStr
  | some t => renderInstant (resolveLocation iana timezone) t

/-- Discount information of one promotional sub-offer, from the GraphQL
response struct of the Go source. -/
structure DiscountSetting where
  discountType : String := ""
  discountPercentage : Int := 0
deriving DecidableEq, Repr

/-- One promotional sub-offer: a date window and its discount setting. -/
structure PromotionalOffer where
  startDate : String := ""
  endDate : String := ""
  discountSetting : DiscountSetting := {}
deriving DecidableEq, Repr

/-- One offer group: the upstream nests sub-offers inside a list field that
is itself named promotionalOffers. -/
structure OfferGroup where
  promotionalOffers : List PromotionalOffer := []
deriving DecidableEq, Repr

/-- The two promotion lists of an element. -/
structure Promotions where
  promotionalOffers : List OfferGroup := []
  upcomingPromotionalOffers : List OfferGroup := []
deriving DecidableEq, Repr

/-- Formatted price strings of an element. -/
structure FmtPrice where
  originalPrice : String := ""
  discountPrice : String := ""
deriving DecidableEq, Repr

/-- Wrapper mirroring the totalPrice nesting of the response. -/
structure TotalPrice where
  fmtPrice : FmtPrice := {}
deriving DecidableEq, Repr

/-- Wrapper mirroring the price nesting of the response. -/
structure Price where
  totalPrice : TotalPrice := {}
deriving DecidableEq, Repr

/-- Seller record of an element. -/
structure Seller where
  name : String := ""
deriving DecidableEq, Repr

/-- One labeled image variant of an element. -/
structure KeyImage where
  type : String := ""
  url : String := ""
deriving DecidableEq, Repr

/-- One page mapping: a slug candidate with its page type. -/
structure Mapping where
  pageSlug : String := ""
  pageType : String := ""
deriving DecidableEq, Repr

/-- Catalog namespace of an element, holding the secondary mapping list. -/
structure CatalogNs where
  mappings : List Mapping := []
deriving DecidableEq, Repr

/-- One upstream catalog element, with the fields of the GraphQL response
struct that the fetchFreeGames loop reads. -/
structure Element where
  title : String := ""
  description : String := ""
  seller : Seller := {}
  keyImages : List KeyImage := []
  productSlug : String := ""
  url : String := ""
  urlSlug : String := ""
  offerMappings : List Mapping := []
  catalogNs : CatalogNs := {}
  price : Price := {}
  promotions : Promotions := {}
deriving DecidableEq, Repr

/-- The normalized output record of the service, with Go zero values as
defaults since the Go source builds it by mutating a zero-initialized
struct. -/
structure Game where
  title : String := ""
  description : String := ""
  imageURL : String := ""
  url : String := ""
  status : String := ""
  startDate : String := ""
  endDate : String := ""
  datePrecision : String := ""
  publisher : String := ""
deriving DecidableEq, Repr

/-- Substring test on character lists, front to back. -/
def listHasSub (needle : List Char) : List Char → Bool
  | [] => needle.isEmpty
  | c :: rest => needle.isPrefixOf (c :: rest) || listHasSub needle rest

/-- Embedding of strings.Contains from the Go standard library. -/
def strContains (s sub : String) : Bool := listHasSub sub.data s.data

/-- Character-wise ASCII lowering, embedding strings.ToLower for the ASCII
price strings the pipeline inspects. -/
def strToLower (s : String) : String := String.mk (s.data.map Char.toLower)

/-- Embedding of the zero-price test of fetchFreeGames: the formatted
discount price is the dollar-zero string, the digit zero, empty, or
contains the word free case-insensitively. -/
def isFreePrice (price : String) : Bool :=
  price == "$0.00" || price == "0" || price == "" || strContains (strToLower price) "free"

/-- Embedding of the thumbnail selection loop of fetchFreeGames: the url of
the first image whose type is Thumbnail or DieselGameBox, else empty. -/
def selectImage : List KeyImage → String
  | [] => ""
  | img :: rest =>
      if img.type == "Thumbnail" || img.type == "DieselGameBox" then img.url
      else selectImage rest

/-- Embedding of the slug search loops of fetchFreeGames: the first
non-empty pageSlug of a mapping list, else empty. -/
def firstNonEmptySlug : List Mapping → String
  | [] => ""
  | m :: rest => if m.pageSlug != "" then m.pageSlug else firstNonEmptySlug rest

/-- Embedding of the pageSlug resolution of fetchFreeGames: scan the
offerMappings list first; if that yields nothing, scan the catalogNs
mapping list; else keep the empty slug. -/
def resolvePageSlug (e : Element) : String :=
  let s := if 0 < e.offerMappings.length then firstNonEmptySlug e.offerMappings else ""
  if s == "" && 0 < e.catalogNs.mappings.length then firstNonEmptySlug e.catalogNs.mappings
  else s

/-- The fixed store base path into which the resolved slug is substituted. -/
def urlBase : String := "https://store.epicgames.com/en-US/p/"

/-- The game record as first assembled by the loop body, before the
promotion scans: identity fields, the selected thumbnail, and the canonical
url built from the resolved slug. -/
def initGame (e : Element) : Game :=
  { title := e.title
    description := e.description
    publisher := e.seller.name
    imageURL := selectImage e.keyImages
    url := urlBase ++ resolvePageSlug e }

/-- The field update performed for each sub-offer at one hundred percent
discount: set the status, both formatted dates, and exact precision. -/
def setPromoFields (fd : String → String) (status : String) (g : Game)
    (p : PromotionalOffer) : Game :=
  { g with status := status, startDate := fd p.startDate, endDate := fd p.endDate,
           datePrecision := "exact" }

/-- Embedding of the inner sub-offer loop of the two promotion scans: every
sub-offer whose discount percentage equals one hundred marks the flag and
overwrites the record fields, so later matches overwrite earlier ones. -/
def scanOffers (fd : String → String) (status : String) :
    Bool × Game → List PromotionalOffer → Bool × Game
  | st, [] => st
  | st, p :: rest =>
      scanOffers fd status
        (if p.discountSetting.discountPercentage == 100
         then (true, setPromoFields fd status st.2 p) else st) rest

/-- Embedding of the outer offer-group loop of the two promotion scans,
with the emptiness guard of the Go source. -/
def scanGroups (fd : String → String) (status : String) :
    Bool × Game → List OfferGroup → Bool × Game
  | st, [] => st
  | st, g :: rest =>
      scanGroups fd status
        (if 0 < g.promotionalOffers.length then scanOffers fd status st g.promotionalOffers
         else st) rest

/-- Embedding of the fallback rescan condition on a group: its first
sub-offer exists and has non-empty start and end dates (the discount
percentage is not inspected). -/
def goodGroup (g : OfferGroup) : Bool :=
  match g.promotionalOffers with
  | [] => false
  | p :: _ => p.startDate != "" && p.endDate != ""

/-- Embedding of the fallback rescan loop of fetchFreeGames: walk the
current offer groups in order; for the first group whose first sub-offer
has non-empty dates, return both dates formatted; stop there. -/
def fallbackScan (fd : String → String) : List OfferGroup → Option (String × String)
  | [] => none
  | g :: rest =>
      match g.promotionalOffers with
      | [] => fallbackScan fd rest
      | p :: _ =>
          if p.startDate != "" && p.endDate != "" then some (fd p.startDate, fd p.endDate)
          else fallbackScan fd rest

/-- Embedding of the fallback upgrade stage of fetchFreeGames: when the
status is free and either both dates are empty or the precision is
estimated, the first usable current offer overwrites the dates and sets
exact precision. -/
def applyFallback (fd : String → String) (groups : List OfferGroup) (g : Game) : Game :=
  if g.status == "free" && (g.startDate == "" && g.endDate == "" || g.datePrecision == "estimated") then
    match fallbackScan fd groups with
    | some (s, e) => { g with startDate := s, endDate := e, datePrecision := "exact" }
    | none => g
  else g

/-- Embedding of the final guard of fetchFreeGames: when both dates are
still empty, force the literal Unknown into both and mark the precision
unknown. -/
def applyUnknown (g : Game) : Game :=
  if g.startDate == "" && g.endDate == "" then
    { g with startDate := "Unknown", endDate := "Unknown", datePrecision := "unknown" }
  else g

/-- The current-promotions scan stage, with the outer emptiness guard. -/
def stepCurrent (fd : String → String) (g0 : Game) (groups : List OfferGroup) : Bool × Game :=
  if 0 < groups.length then scanGroups fd "free" (false, g0) groups else (false, g0)

/-- The upcoming-promotions scan stage, entered only when the entry is not
currently free, upcoming inclusion was requested, and the list is
non-empty. -/
def stepUpcoming (fd : String → String) (icf : Bool) (inc : Bool) (g1 : Game)
    (groups : List OfferGroup) : Bool × Game :=
  if !icf && inc && 0 < groups.length then scanGroups fd "coming soon" (false, g1) groups
  else (false, g1)

/-- The price inspection stage of fetchFreeGames: entered when neither scan
matched; a free-looking price yields estimated dates built from the current
instant and a seven day horizon, any other price skips the entry. -/
def stepPrice (iana : String → Option Location) (timezone : String) (now : Int)
    (icf huf : Bool) (price : String) (g2 : Game) : Option Game :=
  if !icf && !huf then
    if isFreePrice price then
      let location := resolveLocationSimple iana timezone
      some { g2 with status := "free",
                     startDate := renderInstant location now,
                     endDate := renderInstant location (goAddDate location now 7),
                     datePrecision := "estimated" }
    else none
  else some g2

/-- The upcoming-exclusion filter of fetchFreeGames: when upcoming games
were not requested and the record ended up coming soon, the loop continues
without appending. -/
def stepFilter (includeUpcoming : Bool) (g3 : Game) : Option Game :=
  if !includeUpcoming && g3.status == "coming soon" then none else some g3

/-- The tail of the loop body after the price stage: the records that were
not skipped by the price branch pass the upcoming-exclusion filter and then
the fallback upgrade. -/
def stepEnd (fd : String → String) (groups : List OfferGroup) (includeUpcoming : Bool)
    (osp : Option Game) : Option Game :=
  match osp with
  | none => none
  | some g3 =>
      match stepFilter includeUpcoming g3 with
      | none => none
      | some g4 => some (applyFallback fd groups g4)

/-- The per-element body of the fetchFreeGames loop up to and including the
fallback upgrade stage, returning none when the loop continues without
appending. -/
def processElementPre (iana : String → Option Location) (timezone : String)
    (includeUpcoming : Bool) (now : Int) (element : Element) : Option Game :=
  let fd := formatDate iana timezone
  let st1 := stepCurrent fd (initGame element) element.promotions.promotionalOffers
  let st2 := stepUpcoming fd st1.1 includeUpcoming st1.2 element.promotions.upcomingPromotionalOffers
  stepEnd fd element.promotions.promotionalOffers includeUpcoming
    (stepPrice iana timezone now st1.1 st2.1
      element.price.totalPrice.fmtPrice.discountPrice st2.2)

/-- The complete per-element body of the fetchFreeGames loop: the stages
above followed by the final Unknown guard. -/
def processElement (iana : String → Option Location) (timezone : String)
    (includeUpcoming : Bool) (now : Int) (element : Element) : Option Game :=
  (processElementPre iana timezone includeUpcoming now element).map applyUnknown

/-- The pure core of fetchFreeGames applied to a decoded response: every
element is processed in order and the surviving records are collected. -/
def fetchFreeGames (iana : String → Option Location) (timezone : String)
    (includeUpcoming : Bool) (now : Int) (elements : List Element) : List Game :=
  elements.filterMap (processElement iana timezone includeUpcoming now)

/-- One field of a Discord embed, from discord.go. -/
structure DiscordEmbedField where
  name : String := ""
  value : String := ""
  inline : Bool := false
deriving DecidableEq, Repr

/-- Thumbnail of a Discord embed. -/
structure DiscordEmbedThumbnail where
  url : String := ""
deriving DecidableEq, Repr

/-- Footer of a Discord embed. -/
structure DiscordEmbedFooter where
  text : String := ""
  iconURL : String := ""
deriving DecidableEq, Repr

/-- One Discord embed card, from discord.go. -/
structure DiscordEmbed where
  title : String := ""
  description : String := ""
  url : String := ""
  color : Int := 0
  timestamp : String := ""
  fields : List DiscordEmbedField := []
  thumbnail : Option DiscordEmbedThumbnail := none
  footer : Option DiscordEmbedFooter := none
deriving DecidableEq, Repr

/-- The webhook message payload, from discord.go. -/
structure DiscordWebhookMessage where
  content : String := ""
  username : String := ""
  avatarURL : String := ""
  embeds : List DiscordEmbed := []
deriving DecidableEq, Repr

/-- Embedding of createGameEmbed from discord.go: color by status, the
optional publisher field, the status field, the date fields unless the
literal Unknown, the optional thumbnail, and the precision footer.  The
timestamp taken from the wall clock is passed in as a string. -/
def createGameEmbed (nowStr : String) (game : Game) : DiscordEmbed :=
  let color : Int :=
    if game.status == "free" then 0x2ECC71
    else if game.status == "coming soon" then 0xF1C40F
    else 0x0078F2
  let fields :=
    (if game.publisher != "" then
       [{ name := "Publisher", value := game.publisher, inline := true : DiscordEmbedField }]
     else [])
    ++ [{ name := "Status",
          value := if game.status == "coming soon" then "Coming Soon" else "Currently Free",
          inline := true : DiscordEmbedField }]
    ++ (if game.startDate != "Unknown" then
          [{ name := "Available From", value := game.startDate, inline := false : DiscordEmbedField }]
        else [])
    ++ (if game.endDate != "Unknown" then
          [{ name := "Available Until", value := game.endDate, inline := false : DiscordEmbedField }]
        else [])
  let precisionText :=
    if game.datePrecision == "exact" then "Dates are exact"
    else if game.datePrecision == "estimated" then "Dates are estimated"
    else if game.datePrecision == "unknown" then "Dates are unknown"
    else ""
  { title := game.title
    description := game.description
    url := game.url
    color := color
    timestamp := nowStr
    fields := fields
    thumbnail := if game.imageURL != "" then some { url := game.imageURL } else none
    footer := some { text := precisionText } }

/-- Embedding of the payload construction of SendDiscordNotification from
discord.go: an empty record list sends nothing (none); otherwise the
message carries one embed per record, stopping after ten. -/
def buildWebhookMessage (nowStr : String) (games : List Game) : Option DiscordWebhookMessage :=
  if games.length == 0 then none
  else
    some { content := "🎮 Free Games from Epic Games Store 🎮"
           embeds := (games.take 10).map (createGameEmbed nowStr) }

/-! ### Characterization of the two promotion scans

The two scan loops write their fields once per matching sub-offer, so the
net effect is determined by the flattened, in-order list of sub-offers at
one hundred percent discount: the scan is the identity when that list is
empty, and otherwise applies the field update of its last element. -/

/-- The match condition of the two scan loops. -/
def is100 (p : PromotionalOffer) : Bool := p.discountSetting.discountPercentage == 100

/-- The flattened, in-order list of sub-offers at one hundred percent
discount of a promotion list. -/
def matches100 (groups : List OfferGroup) : List PromotionalOffer :=
  (groups.map (fun g => g.promotionalOffers.filter is100)).flatten

/-- Sequential application of the per-match field update. -/
def applyLast (fd : String → String) (status : String) :
    Bool × Game → List PromotionalOffer → Bool × Game
  | st, [] => st
  | st, p :: rest => applyLast fd status (true, setPromoFields fd status st.2 p) rest

theorem length_pos_not (α : Type) (l : List α) (h : ¬ 0 < l.length) : l = [] := by
  cases l with
  | nil => rfl
  | cons x xs => simp at h

theorem matches100_nil : matches100 [] = [] := rfl

theorem matches100_cons (g : OfferGroup) (rest : List OfferGroup) :
    matches100 (g :: rest) = g.promotionalOffers.filter is100 ++ matches100 rest := by
  simp [matches100]

theorem setPromoFields_setPromoFields (fd : String → String) (status status2 : String)
    (g : Game) (p q : PromotionalOffer) :
    setPromoFields fd status (setPromoFields fd status2 g q) p = setPromoFields fd status g p := rfl

theorem scanOffers_eq_applyLast (fd : String → String) (status : String)
    (ps : List PromotionalOffer) (st : Bool × Game) :
    scanOffers fd status st ps = applyLast fd status st (ps.filter is100) := by
  induction ps generalizing st with
  | nil => rfl
  | cons p rest ih =>
      by_cases h : p.discountSetting.discountPercentage == 100
      · simp only [scanOffers, h, if_pos, List.filter_cons, is100, applyLast, ih]
      · simp only [scanOffers, h, if_neg, List.filter_cons, is100, ih]
        simp [h]

theorem applyLast_append (fd : String → String) (status : String)
    (a b : List PromotionalOffer) (st : Bool × Game) :
    applyLast fd status st (a ++ b) = applyLast fd status (applyLast fd status st a) b := by
  induction a generalizing st with
  | nil => rfl
  | cons p rest ih =>
      simp only [List.cons_append, applyLast]
      exact ih _

theorem scanGroups_eq_applyLast (fd : String → String) (status : String)
    (groups : List OfferGroup) (st : Bool × Game) :
    scanGroups fd status st groups = applyLast fd status st (matches100 groups) := by
  induction groups generalizing st with
  | nil => rfl
  | cons g rest ih =>
      rw [matches100_cons, applyLast_append]
      show scanGroups fd status
        (if 0 < g.promotionalOffers.length then scanOffers fd status st g.promotionalOffers else st)
        rest = _
      by_cases h : 0 < g.promotionalOffers.length
      · simp only [h, if_pos, scanOffers_eq_applyLast]
        exact ih _
      · have hnil : g.promotionalOffers = [] := length_pos_not _ _ h
        simp only [h, if_neg, hnil, List.filter_nil, applyLast]
        exact ih st

theorem getLast?_eq_none_imp_nil (α : Type) : ∀ (l : List α), l.getLast? = none → l = [] := by
  intro l h
  cases l with
  | nil => rfl
  | cons a t =>
      exfalso
      induction t generalizing a with
      | nil => simp [List.getLast?] at h
      | cons b t ih => rw [List.getLast?_cons_cons] at h; exact ih b h

theorem applyLast_getLast (fd : String → String) (status : String) :
    ∀ (l : List PromotionalOffer) (st : Bool × Game) (p : PromotionalOffer),
      l.getLast? = some p →
      applyLast fd status st l = (true, setPromoFields fd status st.2 p) := by
  intro l
  induction l with
  | nil => intro st p h; simp [List.getLast?] at h
  | cons q t ih =>
      intro st p h
      cases t with
      | nil =>
          simp only [List.getLast?_singleton, Option.some_inj] at h
          subst h
          rfl
      | cons r t2 =>
          rw [List.getLast?_cons_cons] at h
          have step : applyLast fd status st (q :: r :: t2) =
              applyLast fd status (true, setPromoFields fd status st.2 q) (r :: t2) := rfl
          rw [step, ih _ p h]
          rfl

theorem applyLast_nil (fd : String → String) (status : String) (st : Bool × Game) :
    applyLast fd status st [] = st := rfl

theorem applyLast_snd_url (fd : String → String) (status : String) :
    ∀ (l : List PromotionalOffer) (st : Bool × Game),
      (applyLast fd status st l).2.url = st.2.url := by
  intro l
  induction l with
  | nil => intro st; rfl
  | cons p t ih => intro st; rw [show applyLast fd status st (p :: t) =
      applyLast fd status (true, setPromoFields fd status st.2 p) t from rfl, ih]; rfl

theorem applyLast_snd_precision (fd : String → String) (status : String)
    (l : List PromotionalOffer) (st : Bool × Game) :
    (applyLast fd status st l).2.datePrecision = st.2.datePrecision ∨
      (applyLast fd status st l).2.datePrecision = "exact" := by
  cases h : l.getLast? with
  | none => rw [getLast?_eq_none_imp_nil _ l h]; exact Or.inl rfl
  | some p => rw [applyLast_getLast fd status l st p h]; exact Or.inr rfl

theorem applyLast_snd_status (fd : String → String) (status : String)
    (l : List PromotionalOffer) (st : Bool × Game) :
    (applyLast fd status st l).2.status = st.2.status ∨
      (applyLast fd status st l).2.status = status := by
  cases h : l.getLast? with
  | none => rw [getLast?_eq_none_imp_nil _ l h]; exact Or.inl rfl
  | some p => rw [applyLast_getLast fd status l st p h]; exact Or.inr rfl

theorem stepCurrent_eq (fd : String → String) (g0 : Game) (groups : List OfferGroup) :
    stepCurrent fd g0 groups = applyLast fd "free" (false, g0) (matches100 groups) := by
  unfold stepCurrent
  by_cases h : 0 < groups.length
  · simp only [h, if_pos, scanGroups_eq_applyLast]
  · have hnil : groups = [] := length_pos_not _ _ h
    simp [h, hnil, matches100_nil, applyLast]

theorem stepUpcoming_eq_true (fd : String → String) (g1 : Game) (groups : List OfferGroup) :
    stepUpcoming fd false true g1 groups =
      applyLast fd "coming soon" (false, g1) (matches100 groups) := by
  unfold stepUpcoming
  by_cases h : 0 < groups.length
  · simp [h, scanGroups_eq_applyLast]
  · have hnil : groups = [] := length_pos_not _ _ h
    simp [h, hnil, matches100_nil, applyLast]

theorem stepUpcoming_eq_skip (fd : String → String) (icf inc : Bool) (g1 : Game)
    (groups : List OfferGroup) (h : icf = true ∨ inc = false) :
    stepUpcoming fd icf inc g1 groups = (false, g1) := by
  unfold stepUpcoming
  rcases h with h | h <;> subst h <;> simp

/-! ### Characterization of the fallback rescan and the remaining stages -/

theorem fallbackScan_cons (fd : String → String) (g : OfferGroup) (rest : List OfferGroup) :
    fallbackScan fd (g :: rest) =
      match g.promotionalOffers with
      | [] => fallbackScan fd rest
      | p :: _ =>
          if p.startDate != "" && p.endDate != "" then some (fd p.startDate, fd p.endDate)
          else fallbackScan fd rest := rfl

theorem fallbackScan_cons_bad (fd : String → String) (g : OfferGroup)
    (rest : List OfferGroup) (h : goodGroup g = false) :
    fallbackScan fd (g :: rest) = fallbackScan fd rest := by
  rw [fallbackScan_cons]
  cases hp : g.promotionalOffers with
  | nil => rfl
  | cons p ps =>
      unfold goodGroup at h
      rw [hp] at h
      have h2 : (p.startDate != "" && p.endDate != "") = false := h
      show (if (p.startDate != "" && p.endDate != "") = true
            then some (fd p.startDate, fd p.endDate) else fallbackScan fd rest) = fallbackScan fd rest
      rw [h2]
      simp

theorem fallbackScan_cons_good (fd : String → String) (g : OfferGroup)
    (rest : List OfferGroup) (p : PromotionalOffer)
    (h : goodGroup g = true) (hp : g.promotionalOffers.head? = some p) :
    fallbackScan fd (g :: rest) = some (fd p.startDate, fd p.endDate) := by
  rw [fallbackScan_cons]
  cases hpo : g.promotionalOffers with
  | nil =>
      unfold goodGroup at h
      rw [hpo] at h
      exact absurd h (by simp)
  | cons q qs =>
      unfold goodGroup at h
      rw [hpo] at h
      rw [hpo] at hp
      simp only [List.head?_cons, Option.some_inj] at hp
      have h2 : (q.startDate != "" && q.endDate != "") = true := h
      show (if (q.startDate != "" && q.endDate != "") = true
            then some (fd q.startDate, fd q.endDate) else fallbackScan fd rest) =
        some (fd p.startDate, fd p.endDate)
      rw [h2, hp]
      simp

theorem fallbackScan_of_find?_none (fd : String → String) (groups : List OfferGroup)
    (h : groups.find? goodGroup = none) : fallbackScan fd groups = none := by
  induction groups with
  | nil => rfl
  | cons g rest ih =>
      rw [List.find?_cons] at h
      cases hgg : goodGroup g with
      | true => rw [hgg] at h; simp at h
      | false =>
          rw [hgg] at h
          simp only at h
          rw [fallbackScan_cons_bad fd g rest hgg]
          exact ih h

theorem fallbackScan_of_find?_some (fd : String → String) (groups : List OfferGroup)
    (gg : OfferGroup) (p : PromotionalOffer)
    (h : groups.find? goodGroup = some gg) (hp : gg.promotionalOffers.head? = some p) :
    fallbackScan fd groups = some (fd p.startDate, fd p.endDate) := by
  induction groups with
  | nil => simp at h
  | cons g rest ih =>
      rw [List.find?_cons] at h
      cases hgg : goodGroup g with
      | true =>
          rw [hgg] at h
          simp only [Option.some_inj] at h
          subst h
          exact fallbackScan_cons_good fd g rest p hgg hp
      | false =>
          rw [hgg] at h
          simp only at h
          rw [fallbackScan_cons_bad fd g rest hgg]
          exact ih h

theorem applyFallback_url (fd : String → String) (groups : List OfferGroup) (g : Game) :
    (applyFallback fd groups g).url = g.url := by
  unfold applyFallback
  split
  · cases h : fallbackScan fd groups with
    | none => rfl
    | some pr => cases pr; rfl
  · rfl

theorem applyFallback_status (fd : String → String) (groups : List OfferGroup) (g : Game) :
    (applyFallback fd groups g).status = g.status := by
  unfold applyFallback
  split
  · cases h : fallbackScan fd groups with
    | none => rfl
    | some pr => cases pr; rfl
  · rfl

theorem applyFallback_precision (fd : String → String) (groups : List OfferGroup) (g : Game) :
    (applyFallback fd groups g).datePrecision = g.datePrecision ∨
      (applyFallback fd groups g).datePrecision = "exact" := by
  unfold applyFallback
  split
  · cases h : fallbackScan fd groups with
    | none => exact Or.inl rfl
    | some pr => cases pr; exact Or.inr rfl
  · exact Or.inl rfl

theorem applyFallback_skip (fd : String → String) (groups : List OfferGroup) (g : Game)
    (h : (g.status == "free" &&
          (g.startDate == "" && g.endDate == "" || g.datePrecision == "estimated")) = false) :
    applyFallback fd groups g = g := by
  unfold applyFallback
  rw [h]
  rfl

theorem applyUnknown_url (g : Game) : (applyUnknown g).url = g.url := by
  unfold applyUnknown; split <;> rfl

theorem applyUnknown_status (g : Game) : (applyUnknown g).status = g.status := by
  unfold applyUnknown; split <;> rfl

theorem applyUnknown_skip (g : Game) (h : (g.startDate == "" && g.endDate == "") = false) :
    applyUnknown g = g := by
  unfold applyUnknown; rw [h]; rfl

theorem stepCurrent_no_match (fd : String → String) (g0 : Game) (groups : List OfferGroup)
    (h : matches100 groups = []) : stepCurrent fd g0 groups = (false, g0) := by
  rw [stepCurrent_eq, h, applyLast_nil]

theorem stepUpcoming_no_match (fd : String → String) (icf inc : Bool) (g1 : Game)
    (groups : List OfferGroup) (h : matches100 groups = []) :
    stepUpcoming fd icf inc g1 groups = (false, g1) := by
  unfold stepUpcoming
  split
  · rw [scanGroups_eq_applyLast, h, applyLast_nil]
  · rfl

theorem matches100_eq_nil (groups : List OfferGroup)
    (h : ∀ gp ∈ groups, ∀ p ∈ gp.promotionalOffers,
         p.discountSetting.discountPercentage ≠ 100) :
    matches100 groups = [] := by
  unfold matches100
  rw [List.flatten_eq_nil_iff]
  intro l hl
  rw [List.mem_map] at hl
  obtain ⟨gp, hgp, rfl⟩ := hl
  rw [List.filter_eq_nil_iff]
  intro p hp
  unfold is100
  simp only [beq_iff_eq]
  exact h gp hgp p hp

theorem stepPrice_cases (iana : String → Option Location) (timezone : String) (now : Int)
    (icf huf : Bool) (price : String) (g2 g3 : Game)
    (h : stepPrice iana timezone now icf huf price g2 = some g3) :
    (icf = false ∧ huf = false ∧ isFreePrice price = true ∧
      g3 = { g2 with status := "free",
                     startDate := renderInstant (resolveLocationSimple iana timezone) now,
                     endDate := renderInstant (resolveLocationSimple iana timezone)
                                  (goAddDate (resolveLocationSimple iana timezone) now 7),
                     datePrecision := "estimated" }) ∨
    (g3 = g2 ∧ (icf = true ∨ huf = true)) := by
  simp only [stepPrice] at h
  split at h
  case isTrue hg =>
    split at h
    case isTrue hf =>
      left
      have hicf : icf = false := by revert hg; cases icf <;> simp
      have hhuf : huf = false := by revert hg; cases icf <;> cases huf <;> simp
      exact ⟨hicf, hhuf, hf, (Option.some_inj.mp h).symm⟩
    case isFalse hf => cases h
  case isFalse hg =>
    right
    refine ⟨(Option.some_inj.mp h).symm, ?_⟩
    revert hg
    cases icf <;> cases huf <;> simp

/-! ### Claim C4 -/

/-- C4: a record that reaches the fallback stage with status free and
either both dates empty or estimated precision is upgraded from the first
offer, in list order, whose first sub-offer has non-empty start and end
dates, regardless of the discount percentage of that sub-offer (the first
such offer wins, and the scan condition inspects only the first sub-offer
of each group); when no such offer exists the record is unchanged. -/
theorem fallback_upgrade_first_match (fd : String → String) (groups : List OfferGroup)
    (g : Game) (hst : g.status = "free")
    (hd : g.startDate = "" ∧ g.endDate = "" ∨ g.datePrecision = "estimated") :
    (groups.find? goodGroup = none → applyFallback fd groups g = g) ∧
    (∀ gg p, groups.find? goodGroup = some gg → gg.promotionalOffers.head? = some p →
      applyFallback fd groups g =
        { g with startDate := fd p.startDate, endDate := fd p.endDate,
                 datePrecision := "exact" }) := by
  have hcond : (g.status == "free" &&
      (g.startDate == "" && g.endDate == "" || g.datePrecision == "estimated")) = true := by
    rw [hst]
    rcases hd with ⟨h1, h2⟩ | h1 <;> simp [h1]
    rw [h2]
    simp
  constructor
  · intro hf
    unfold applyFallback
    rw [hcond, if_pos rfl, fallbackScan_of_find?_none fd groups hf]
  · intro gg p hf hp
    unfold applyFallback
    rw [hcond, if_pos rfl, fallbackScan_of_find?_some fd groups gg p hf hp]

def exC4good : PromotionalOffer :=
  { startDate := "2025-05-01T00:00:00Z", endDate := "2025-05-08T00:00:00Z",
    discountSetting := { discountType := "PERCENTAGE", discountPercentage := 30 } }

def exC4groups : List OfferGroup :=
  [{ promotionalOffers := [] },
   { promotionalOffers := [{ startDate := "", endDate := "x" }] },
   { promotionalOffers := [exC4good] }]

def exC4game : Game := { status := "free", datePrecision := "estimated" }

/-- Witness for C4 at a concrete input: the third group is the first whose
first sub-offer has non-empty dates, and its thirty percent discount does
not disqualify it. -/
theorem fallback_upgrade_first_match_witness :
    applyFallback (fun s => s) exC4groups exC4game =
      { exC4game with startDate := "2025-05-01T00:00:00Z",
                      endDate := "2025-05-08T00:00:00Z", datePrecision := "exact" } :=
  (fallback_upgrade_first_match (fun s => s) exC4groups exC4game rfl (Or.inr rfl)).2
    { promotionalOffers := [exC4good] } exC4good (by decide) (by decide)

/-! ### Claim C5 -/

/-- C5: an entry with no sub-offer at one hundred percent discount in
either promotion list and a price that is neither zero-looking nor
free-containing is never emitted. -/
theorem paid_entry_excluded (iana : String → Option Location) (timezone : String)
    (includeUpcoming : Bool) (now : Int) (e : Element)
    (h1 : ∀ gp ∈ e.promotions.promotionalOffers, ∀ p ∈ gp.promotionalOffers,
          p.discountSetting.discountPercentage ≠ 100)
    (h2 : ∀ gp ∈ e.promotions.upcomingPromotionalOffers, ∀ p ∈ gp.promotionalOffers,
          p.discountSetting.discountPercentage ≠ 100)
    (h3 : isFreePrice e.price.totalPrice.fmtPrice.discountPrice = false) :
    processElement iana timezone includeUpcoming now e = none := by
  have hc := stepCurrent_no_match (formatDate iana timezone) (initGame e)
    e.promotions.promotionalOffers (matches100_eq_nil _ h1)
  have hu := stepUpcoming_no_match (formatDate iana timezone) false includeUpcoming (initGame e)
    e.promotions.upcomingPromotionalOffers (matches100_eq_nil _ h2)
  simp only [processElement, processElementPre, hc, hu]
  simp [stepPrice, stepEnd, h3]

def exC5 : Element :=
  { price := { totalPrice := { fmtPrice := { discountPrice := "$9.99" } } },
    promotions :=
      { promotionalOffers :=
          [{ promotionalOffers :=
               [{ startDate := "2025-05-01T00:00:00Z", endDate := "2025-05-08T00:00:00Z",
                  discountSetting := { discountType := "PERCENTAGE", discountPercentage := 50 } }] }],
        upcomingPromotionalOffers :=
          [{ promotionalOffers :=
               [{ startDate := "2025-06-01T00:00:00Z", endDate := "2025-06-08T00:00:00Z",
                  discountSetting := { discountType := "PERCENTAGE", discountPercentage := 25 } }] }] } }

/-- Witness for C5 at a concrete input: a half-price entry with a paid
price string produces no record. -/
theorem paid_entry_excluded_witness :
    processElement (fun _ => none) "UTC" true 0 exC5 = none :=
  paid_entry_excluded (fun _ => none) "UTC" true 0 exC5
    (by decide) (by decide) (by decide)

/-! ### Claim C1 -/

/-- C1 (amended): for an entry whose current-promotions list contains at
least one sub-offer at one hundred percent discount, and whose last such
sub-offer in iteration order does not have both formatted dates empty, the
pipeline emits a record with status free and exact precision whose dates
are the DateFormatter rendering of that last matching sub-offer (later
matches overwrite earlier ones). -/
theorem current_promo_last_match (iana : String → Option Location) (timezone : String)
    (includeUpcoming : Bool) (now : Int) (e : Element) (plast : PromotionalOffer)
    (h1 : (matches100 e.promotions.promotionalOffers).getLast? = some plast)
    (h2 : ¬ (formatDate iana timezone plast.startDate = "" ∧
             formatDate iana timezone plast.endDate = "")) :
    processElement iana timezone includeUpcoming now e =
      some { initGame e with
             status := "free",
             startDate := formatDate iana timezone plast.startDate,
             endDate := formatDate iana timezone plast.endDate,
             datePrecision := "exact" } := by
  have hc : stepCurrent (formatDate iana timezone) (initGame e)
        e.promotions.promotionalOffers
      = (true, setPromoFields (formatDate iana timezone) "free" (initGame e) plast) := by
    rw [stepCurrent_eq]
    exact applyLast_getLast _ _ _ _ _ h1
  have hu := stepUpcoming_eq_skip (formatDate iana timezone) true includeUpcoming
    (setPromoFields (formatDate iana timezone) "free" (initGame e) plast)
    e.promotions.upcomingPromotionalOffers (Or.inl rfl)
  have hb : ((formatDate iana timezone plast.startDate == "") &&
             (formatDate iana timezone plast.endDate == "")) = false := by
    by_cases ha : formatDate iana timezone plast.startDate = ""
    · by_cases hbb : formatDate iana timezone plast.endDate = ""
      · exact absurd ⟨ha, hbb⟩ h2
      · simp [hbb]
    · simp [ha]
  have hsp : stepPrice iana timezone now true false e.price.totalPrice.fmtPrice.discountPrice
      (setPromoFields (formatDate iana timezone) "free" (initGame e) plast)
      = some (setPromoFields (formatDate iana timezone) "free" (initGame e) plast) := by
    simp [stepPrice]
  have hcs : ((setPromoFields (formatDate iana timezone) "free" (initGame e) plast).status
      == "coming soon") = false := rfl
  have hfb : ((setPromoFields (formatDate iana timezone) "free" (initGame e) plast).status == "free"
      && ((setPromoFields (formatDate iana timezone) "free" (initGame e) plast).startDate == "" &&
          (setPromoFields (formatDate iana timezone) "free" (initGame e) plast).endDate == "" ||
          (setPromoFields (formatDate iana timezone) "free" (initGame e) plast).datePrecision
            == "estimated")) = false := by
    show (("free" : String) == "free" &&
      ((formatDate iana timezone plast.startDate == "") &&
       (formatDate iana timezone plast.endDate == "") ||
       (("exact" : String) == "estimated"))) = false
    rw [hb]
    decide
  have hun : ((setPromoFields (formatDate iana timezone) "free" (initGame e) plast).startDate == ""
      && (setPromoFields (formatDate iana timezone) "free" (initGame e) plast).endDate == "")
      = false := hb
  have hfl : stepFilter includeUpcoming
      (setPromoFields (formatDate iana timezone) "free" (initGame e) plast) =
      some (setPromoFields (formatDate iana timezone) "free" (initGame e) plast) := by
    simp [stepFilter, hcs]
  simp only [processElement, processElementPre, stepEnd, hc, hu, hsp, hfl,
    applyFallback_skip _ _ _ hfb]
  show some (applyUnknown (setPromoFields (formatDate iana timezone) "free" (initGame e) plast)) = _
  rw [applyUnknown_skip _ hun]
  rfl

def exC1 : Element :=
  { promotions :=
      { promotionalOffers :=
          [{ promotionalOffers :=
               [{ startDate := "", endDate := "",
                  discountSetting :=
                    { discountType := "PERCENTAGE", discountPercentage := 100 } }] }] } }

/-- Counterexample to C1 as stated: this entry has a current sub-offer at
one hundred percent discount whose dates are empty strings, so the claim
predicts an emitted record with exact precision and dates rendered from
that sub-offer (empty, since DateFormatter returns an unparseable string
unchanged); the code instead emits the record with precision unknown and
the literal Unknown in both date fields. -/
theorem current_promo_last_match_cex :
    (matches100 exC1.promotions.promotionalOffers).getLast? =
      some { startDate := "", endDate := "",
             discountSetting := { discountType := "PERCENTAGE", discountPercentage := 100 } } ∧
    formatDate (fun _ => none) "UTC" "" = "" ∧
    (processElement (fun _ => none) "UTC" true 0 exC1).map Game.datePrecision = some "unknown" ∧
    (processElement (fun _ => none) "UTC" true 0 exC1).map Game.datePrecision ≠ some "exact" ∧
    (processElement (fun _ => none) "UTC" true 0 exC1).map Game.startDate = some "Unknown" := by
  decide

def exC1b : Element :=
  { promotions :=
      { promotionalOffers :=
          [{ promotionalOffers :=
               [{ startDate := "2025-01-01T00:00:00Z", endDate := "2025-01-08T00:00:00Z",
                  discountSetting :=
                    { discountType := "PERCENTAGE", discountPercentage := 100 } },
                { startDate := "2025-02-01T00:00:00Z", endDate := "2025-02-08T00:00:00Z",
                  discountSetting :=
                    { discountType := "PERCENTAGE", discountPercentage := 100 } }] }] } }

/-- Witness for the amended C1 at a concrete input: of two matching
sub-offers the second, last in iteration order, supplies the dates. -/
theorem current_promo_last_match_witness :
    processElement (fun _ => none) "UTC" true 0 exC1b =
      some { initGame exC1b with
             status := "free",
             startDate := formatDate (fun _ => none) "UTC" "2025-02-01T00:00:00Z",
             endDate := formatDate (fun _ => none) "UTC" "2025-02-08T00:00:00Z",
             datePrecision := "exact" } :=
  current_promo_last_match (fun _ => none) "UTC" true 0 exC1b
    { startDate := "2025-02-01T00:00:00Z", endDate := "2025-02-08T00:00:00Z",
      discountSetting := { discountType := "PERCENTAGE", discountPercentage := 100 } }
    (by decide) (by decide)

/-! ### Claims C2 and C3 -/

theorem applyFallback_of_scan_none (fd : String → String) (groups : List OfferGroup)
    (g : Game) (h : fallbackScan fd groups = none) : applyFallback fd groups g = g := by
  unfold applyFallback
  split
  · rw [h]
  · rfl

theorem renderInstant_ne_empty (loc : Location) (t : Int) : renderInstant loc t ≠ "" := by
  intro h
  have hl := congrArg String.length h
  simp only [renderInstant, String.length_append] at hl
  have hdash : ("-" : String).length = 1 := rfl
  have hblank : (" " : String).length = 1 := rfl
  have hcolon : (":" : String).length = 1 := rfl
  have hnil : ("" : String).length = 0 := rfl
  simp only [hdash, hblank, hcolon, hnil] at hl
  omega

/-- C2 (amended): for an entry with no current sub-offer at one hundred
percent discount and at least one such sub-offer in the upcoming list, a
call requesting upcoming inclusion emits the record with status coming
soon, whatever the price string; a call without upcoming inclusion omits
the entry provided its price string is not zero-looking or free-containing
(with a free-looking price the code emits the entry as free and estimated
instead). -/
theorem upcoming_only (iana : String → Option Location) (timezone : String) (now : Int)
    (e : Element) (pl : PromotionalOffer)
    (hcur : matches100 e.promotions.promotionalOffers = [])
    (hup : (matches100 e.promotions.upcomingPromotionalOffers).getLast? = some pl) :
    (∃ g, processElement iana timezone true now e = some g ∧ g.status = "coming soon") ∧
    (isFreePrice e.price.totalPrice.fmtPrice.discountPrice = false →
      processElement iana timezone false now e = none) := by
  have hc : stepCurrent (formatDate iana timezone) (initGame e)
      e.promotions.promotionalOffers = (false, initGame e) :=
    stepCurrent_no_match _ _ _ hcur
  constructor
  · have hu : stepUpcoming (formatDate iana timezone) false true (initGame e)
        e.promotions.upcomingPromotionalOffers =
        (true, setPromoFields (formatDate iana timezone) "coming soon" (initGame e) pl) := by
      rw [stepUpcoming_eq_true]
      exact applyLast_getLast _ _ _ _ _ hup
    have hsp : stepPrice iana timezone now false true e.price.totalPrice.fmtPrice.discountPrice
        (setPromoFields (formatDate iana timezone) "coming soon" (initGame e) pl) =
        some (setPromoFields (formatDate iana timezone) "coming soon" (initGame e) pl) := by
      simp [stepPrice]
    have hfl : stepFilter true
        (setPromoFields (formatDate iana timezone) "coming soon" (initGame e) pl) =
        some (setPromoFields (formatDate iana timezone) "coming soon" (initGame e) pl) := by
      simp [stepFilter]
    have hfb : ((setPromoFields (formatDate iana timezone) "coming soon" (initGame e) pl).status
        == "free") = false := rfl
    have happ : applyFallback (formatDate iana timezone) e.promotions.promotionalOffers
        (setPromoFields (formatDate iana timezone) "coming soon" (initGame e) pl) =
        setPromoFields (formatDate iana timezone) "coming soon" (initGame e) pl :=
      applyFallback_skip _ _ _ (by rw [show ((setPromoFields (formatDate iana timezone)
        "coming soon" (initGame e) pl).status == "free" &&
        ((setPromoFields (formatDate iana timezone) "coming soon" (initGame e) pl).startDate == "" &&
         (setPromoFields (formatDate iana timezone) "coming soon" (initGame e) pl).endDate == "" ||
         (setPromoFields (formatDate iana timezone) "coming soon" (initGame e) pl).datePrecision
           == "estimated")) = (false &&
        ((setPromoFields (formatDate iana timezone) "coming soon" (initGame e) pl).startDate == "" &&
         (setPromoFields (formatDate iana timezone) "coming soon" (initGame e) pl).endDate == "" ||
         (setPromoFields (formatDate iana timezone) "coming soon" (initGame e) pl).datePrecision
           == "estimated")) from rfl]; exact Bool.false_and _)
    refine ⟨applyUnknown (setPromoFields (formatDate iana timezone) "coming soon" (initGame e) pl),
      ?_, ?_⟩
    · simp only [processElement, processElementPre, stepEnd, hc, hu, hsp, hfl, happ]
      rfl
    · rw [applyUnknown_status]
      rfl
  · intro hprice
    have hu2 : stepUpcoming (formatDate iana timezone) false false (initGame e)
        e.promotions.upcomingPromotionalOffers = (false, initGame e) :=
      stepUpcoming_eq_skip _ _ _ _ _ (Or.inr rfl)
    have hsp2 : stepPrice iana timezone now false false e.price.totalPrice.fmtPrice.discountPrice
        (initGame e) = none := by
      simp [stepPrice, hprice]
    simp only [processElement, processElementPre, stepEnd, hc, hu2, hsp2]
    rfl

def exC2 : Element :=
  { promotions :=
      { upcomingPromotionalOffers :=
          [{ promotionalOffers :=
               [{ startDate := "2025-03-01T00:00:00Z", endDate := "2025-03-08T00:00:00Z",
                  discountSetting :=
                    { discountType := "PERCENTAGE", discountPercentage := 100 } }] }] } }

/-- Counterexample to C2 as stated: this entry has its only one hundred
percent sub-offer in the upcoming list and an empty price string; with
upcoming inclusion disabled the claim says it is absent from the output,
but the code emits it with status free through the price branch. -/
theorem upcoming_only_cex :
    matches100 exC2.promotions.promotionalOffers = [] ∧
    (matches100 exC2.promotions.upcomingPromotionalOffers).length = 1 ∧
    processElement (fun _ => none) "UTC" false 0 exC2 ≠ none ∧
    (processElement (fun _ => none) "UTC" false 0 exC2).map Game.status = some "free" := by
  decide

def exC2b : Element :=
  { price := { totalPrice := { fmtPrice := { discountPrice := "$29.99" } } },
    promotions :=
      { upcomingPromotionalOffers :=
          [{ promotionalOffers :=
               [{ startDate := "2025-03-01T00:00:00Z", endDate := "2025-03-08T00:00:00Z",
                  discountSetting :=
                    { discountType := "PERCENTAGE", discountPercentage := 100 } }] }] } }

/-- Witness for the amended C2 at concrete inputs: a paid upcoming-only
entry is included as coming soon when upcoming is requested and absent
otherwise, and even a free-priced upcoming-only entry is emitted as coming
soon when upcoming is requested. -/
theorem upcoming_only_witness :
    ((∃ g, processElement (fun _ => none) "UTC" true 0 exC2b = some g ∧
      g.status = "coming soon") ∧
     processElement (fun _ => none) "UTC" false 0 exC2b = none) ∧
    (∃ g, processElement (fun _ => none) "UTC" true 0 exC2 = some g ∧
      g.status = "coming soon") :=
  ⟨⟨(upcoming_only (fun _ => none) "UTC" 0 exC2b
      { startDate := "2025-03-01T00:00:00Z", endDate := "2025-03-08T00:00:00Z",
        discountSetting := { discountType := "PERCENTAGE", discountPercentage := 100 } }
      (by decide) (by decide)).1,
    (upcoming_only (fun _ => none) "UTC" 0 exC2b
      { startDate := "2025-03-01T00:00:00Z", endDate := "2025-03-08T00:00:00Z",
        discountSetting := { discountType := "PERCENTAGE", discountPercentage := 100 } }
      (by decide) (by decide)).2 (by decide)⟩,
   (upcoming_only (fun _ => none) "UTC" 0 exC2
      { startDate := "2025-03-01T00:00:00Z", endDate := "2025-03-08T00:00:00Z",
        discountSetting := { discountType := "PERCENTAGE", discountPercentage := 100 } }
      (by decide) (by decide)).1⟩

/-- C3 (amended): for an entry with no sub-offer at one hundred percent
discount in either promotion list, a zero-looking or free-containing price
string, and no current offer whose first sub-offer has non-empty dates, the
pipeline emits the record with status free and estimated precision, start
date the current instant rendered in the simply resolved location, and end
date the same instant advanced by seven calendar days. -/
theorem zero_price_estimated (iana : String → Option Location) (timezone : String)
    (includeUpcoming : Bool) (now : Int) (e : Element)
    (h1 : matches100 e.promotions.promotionalOffers = [])
    (h2 : matches100 e.promotions.upcomingPromotionalOffers = [])
    (h3 : isFreePrice e.price.totalPrice.fmtPrice.discountPrice = true)
    (h4 : ∀ gp ∈ e.promotions.promotionalOffers, goodGroup gp = false) :
    processElement iana timezone includeUpcoming now e =
      some { initGame e with
             status := "free",
             startDate := renderInstant (resolveLocationSimple iana timezone) now,
             endDate := renderInstant (resolveLocationSimple iana timezone)
               (goAddDate (resolveLocationSimple iana timezone) now 7),
             datePrecision := "estimated" } := by
  have hc : stepCurrent (formatDate iana timezone) (initGame e)
      e.promotions.promotionalOffers = (false, initGame e) :=
    stepCurrent_no_match _ _ _ h1
  have hu : stepUpcoming (formatDate iana timezone) false includeUpcoming (initGame e)
      e.promotions.upcomingPromotionalOffers = (false, initGame e) :=
    stepUpcoming_no_match _ _ _ _ _ h2
  have hsp : stepPrice iana timezone now false false e.price.totalPrice.fmtPrice.discountPrice
      (initGame e) =
      some { initGame e with
             status := "free",
             startDate := renderInstant (resolveLocationSimple iana timezone) now,
             endDate := renderInstant (resolveLocationSimple iana timezone)
               (goAddDate (resolveLocationSimple iana timezone) now 7),
             datePrecision := "estimated" } := by
    simp [stepPrice, h3]
  have hfl : stepFilter includeUpcoming
      { initGame e with
        status := "free",
        startDate := renderInstant (resolveLocationSimple iana timezone) now,
        endDate := renderInstant (resolveLocationSimple iana timezone)
          (goAddDate (resolveLocationSimple iana timezone) now 7),
        datePrecision := "estimated" } =
      some { initGame e with
             status := "free",
             startDate := renderInstant (resolveLocationSimple iana timezone) now,
             endDate := renderInstant (resolveLocationSimple iana timezone)
               (goAddDate (resolveLocationSimple iana timezone) now 7),
             datePrecision := "estimated" } := by
    simp [stepFilter]
  have hfs : fallbackScan (formatDate iana timezone) e.promotions.promotionalOffers = none :=
    fallbackScan_of_find?_none _ _ (List.find?_eq_none.mpr (fun gp hgp => by
      rw [h4 gp hgp]; simp))
  have happ := applyFallback_of_scan_none (formatDate iana timezone)
    e.promotions.promotionalOffers
    { initGame e with
      status := "free",
      startDate := renderInstant (resolveLocationSimple iana timezone) now,
      endDate := renderInstant (resolveLocationSimple iana timezone)
        (goAddDate (resolveLocationSimple iana timezone) now 7),
      datePrecision := "estimated" } hfs
  have hb1 : (renderInstant (resolveLocationSimple iana timezone) now == "") = false := by
    rw [beq_eq_false_iff_ne]
    exact renderInstant_ne_empty _ _
  have hun : (({ initGame e with
      status := "free",
      startDate := renderInstant (resolveLocationSimple iana timezone) now,
      endDate := renderInstant (resolveLocationSimple iana timezone)
        (goAddDate (resolveLocationSimple iana timezone) now 7),
      datePrecision := "estimated" } : Game).startDate == "" &&
      ({ initGame e with
      status := "free",
      startDate := renderInstant (resolveLocationSimple iana timezone) now,
      endDate := renderInstant (resolveLocationSimple iana timezone)
        (goAddDate (resolveLocationSimple iana timezone) now 7),
      datePrecision := "estimated" } : Game).endDate == "") = false := by
    show (renderInstant (resolveLocationSimple iana timezone) now == "" && _) = false
    rw [hb1]
    exact Bool.false_and _
  simp only [processElement, processElementPre, stepEnd, hc, hu, hsp, hfl, happ]
  show some (applyUnknown _) = _
  rw [applyUnknown_skip _ hun]

def exC3 : Element :=
  { price := { totalPrice := { fmtPrice := { discountPrice := "$0.00" } } },
    promotions :=
      { promotionalOffers :=
          [{ promotionalOffers :=
               [{ startDate := "2025-01-01T00:00:00Z", endDate := "2025-01-08T00:00:00Z",
                  discountSetting :=
                    { discountType := "PERCENTAGE", discountPercentage := 50 } }] }] } }

/-- Counterexample to C3 as stated: this entry has a zero price and no
one hundred percent discount anywhere, so the claim predicts estimated
precision; but its current list holds a half-price offer with non-empty
dates, so the fallback stage overwrites the estimated dates and the code
emits exact precision with the dates of that offer. -/
theorem zero_price_estimated_cex :
    matches100 exC3.promotions.promotionalOffers = [] ∧
    matches100 exC3.promotions.upcomingPromotionalOffers = [] ∧
    isFreePrice exC3.price.totalPrice.fmtPrice.discountPrice = true ∧
    (processElement (fun _ => none) "UTC" true 0 exC3).map Game.datePrecision = some "exact" ∧
    (processElement (fun _ => none) "UTC" true 0 exC3).map Game.datePrecision ≠
      some "estimated" ∧
    (processElement (fun _ => none) "UTC" true 0 exC3).map Game.startDate =
      some "2025-01-01 00:00:00 UTC" := by
  decide

def exC3b : Element :=
  { price := { totalPrice := { fmtPrice := { discountPrice := "$0.00" } } } }

/-- Witness for the amended C3 at a concrete input: a promotion-free entry
priced at zero dollars is emitted as free and estimated with a seven day
window. -/
theorem zero_price_estimated_witness :
    processElement (fun _ => none) "UTC" true 0 exC3b =
      some { initGame exC3b with
             status := "free",
             startDate := renderInstant (resolveLocationSimple (fun _ => none) "UTC") 0,
             endDate := renderInstant (resolveLocationSimple (fun _ => none) "UTC")
               (goAddDate (resolveLocationSimple (fun _ => none) "UTC") 0 7),
             datePrecision := "estimated" } :=
  zero_price_estimated (fun _ => none) "UTC" true 0 exC3b rfl rfl (by decide) (by decide)

/-! ### Claim C6 -/

theorem scan_pair_cases (fd : String → String) (status : String) (g0 : Game)
    (l : List PromotionalOffer) :
    applyLast fd status (false, g0) l = (false, g0) ∨
    ∃ p, applyLast fd status (false, g0) l = (true, setPromoFields fd status g0 p) := by
  cases hl : l.getLast? with
  | none => left; rw [getLast?_eq_none_imp_nil _ l hl]; rfl
  | some p => right; exact ⟨p, applyLast_getLast _ _ _ _ _ hl⟩

theorem stepCurrent_cases (fd : String → String) (g0 : Game) (groups : List OfferGroup) :
    stepCurrent fd g0 groups = (false, g0) ∨
    ∃ p, stepCurrent fd g0 groups = (true, setPromoFields fd "free" g0 p) := by
  rw [stepCurrent_eq]
  exact scan_pair_cases fd "free" g0 (matches100 groups)

theorem stepUpcoming_cases (fd : String → String) (icf inc : Bool) (g1 : Game)
    (groups : List OfferGroup) :
    stepUpcoming fd icf inc g1 groups = (false, g1) ∨
    ∃ p, stepUpcoming fd icf inc g1 groups = (true, setPromoFields fd "coming soon" g1 p) := by
  unfold stepUpcoming
  split
  · rw [scanGroups_eq_applyLast]
    exact scan_pair_cases fd "coming soon" g1 (matches100 groups)
  · left; rfl

theorem stepFilter_some (inc : Bool) (g3 g4 : Game) (h : stepFilter inc g3 = some g4) :
    g4 = g3 := by
  unfold stepFilter at h
  split at h
  · cases h
  · exact (Option.some_inj.mp h).symm

theorem stepCurrent_fst_true (fd : String → String) (g0 : Game) (groups : List OfferGroup)
    (h : (stepCurrent fd g0 groups).1 = true) :
    (stepCurrent fd g0 groups).2.datePrecision = "exact" ∧
    (stepCurrent fd g0 groups).2.status = "free" := by
  rcases stepCurrent_cases fd g0 groups with hc | ⟨p, hc⟩
  · rw [hc] at h; cases h
  · rw [hc]; exact ⟨rfl, rfl⟩

theorem stepUpcoming_fst_true (fd : String → String) (icf inc : Bool) (g1 : Game)
    (groups : List OfferGroup) (h : (stepUpcoming fd icf inc g1 groups).1 = true) :
    (stepUpcoming fd icf inc g1 groups).2.datePrecision = "exact" ∧
    (stepUpcoming fd icf inc g1 groups).2.status = "coming soon" := by
  rcases stepUpcoming_cases fd icf inc g1 groups with hc | ⟨p, hc⟩
  · rw [hc] at h; cases h
  · rw [hc]; exact ⟨rfl, rfl⟩

theorem stepUpcoming_snd_cases (fd : String → String) (icf inc : Bool) (g1 : Game)
    (groups : List OfferGroup) :
    (stepUpcoming fd icf inc g1 groups).2 = g1 ∨
    (stepUpcoming fd icf inc g1 groups).2.datePrecision = "exact" := by
  rcases stepUpcoming_cases fd icf inc g1 groups with hc | ⟨p, hc⟩
  · rw [hc]; left; rfl
  · rw [hc]; right; rfl

theorem stepEnd_precision (fd : String → String) (groups : List OfferGroup) (inc : Bool)
    (osp : Option Game) (g2 : Game)
    (hosp : ∀ g3, osp = some g3 →
      g3.datePrecision = "exact" ∨ g3.datePrecision = "estimated")
    (h : stepEnd fd groups inc osp = some g2) :
    g2.datePrecision = "exact" ∨ g2.datePrecision = "estimated" := by
  cases osp with
  | none => simp [stepEnd] at h
  | some g3 =>
      simp only [stepEnd] at h
      cases hfl : stepFilter inc g3 with
      | none => rw [hfl] at h; cases h
      | some g4 =>
          rw [hfl] at h
          have hg4 : g4 = g3 := stepFilter_some inc g3 g4 hfl
          have hg2 : g2 = applyFallback fd groups g4 := (Option.some_inj.mp h).symm
          rcases applyFallback_precision fd groups g4 with hq | hq
          · rw [hg2, hq, hg4]
            exact hosp g3 rfl
          · left; rw [hg2, hq]

theorem pre_precision (iana : String → Option Location) (timezone : String)
    (includeUpcoming : Bool) (now : Int) (e : Element) (g2 : Game)
    (h : processElementPre iana timezone includeUpcoming now e = some g2) :
    g2.datePrecision = "exact" ∨ g2.datePrecision = "estimated" := by
  simp only [processElementPre] at h
  refine stepEnd_precision (formatDate iana timezone) e.promotions.promotionalOffers
    includeUpcoming _ g2 ?_ h
  intro g3 hg3
  rcases stepPrice_cases _ _ _ _ _ _ _ _ hg3 with ⟨_, _, _, hrec⟩ | ⟨heq, hor⟩
  · right; rw [hrec]
  · left
    rw [heq]
    rcases hor with hic | hup
    · rcases stepUpcoming_snd_cases (formatDate iana timezone)
          (stepCurrent (formatDate iana timezone) (initGame e)
            e.promotions.promotionalOffers).1 includeUpcoming
          (stepCurrent (formatDate iana timezone) (initGame e)
            e.promotions.promotionalOffers).2
          e.promotions.upcomingPromotionalOffers with hs | hs
      · rw [hs]
        exact (stepCurrent_fst_true _ _ _ hic).1
      · exact hs
    · exact (stepUpcoming_fst_true _ _ _ _ _ hup).1

theorem applyUnknown_fire (g : Game) (h : (g.startDate == "" && g.endDate == "") = true) :
    applyUnknown g =
      { g with startDate := "Unknown", endDate := "Unknown", datePrecision := "unknown" } := by
  unfold applyUnknown
  rw [h]
  rfl

/-- C6: in every emitted record the precision is unknown exactly when both
date strings were still empty after the fallback stage, and in that case
both dates are forced to the literal Unknown; a record whose pre-guard
state resolved a date never carries unknown precision. -/
theorem unknown_precision_iff (iana : String → Option Location) (timezone : String)
    (includeUpcoming : Bool) (now : Int) (e : Element) (g : Game)
    (h : processElement iana timezone includeUpcoming now e = some g) :
    ∃ g2, processElementPre iana timezone includeUpcoming now e = some g2 ∧
      g = applyUnknown g2 ∧
      (g.datePrecision = "unknown" ↔ (g2.startDate = "" ∧ g2.endDate = "")) ∧
      (g.datePrecision = "unknown" → g.startDate = "Unknown" ∧ g.endDate = "Unknown") := by
  simp only [processElement] at h
  cases hp : processElementPre iana timezone includeUpcoming now e with
  | none => rw [hp] at h; cases h
  | some g2 =>
      rw [hp] at h
      have hg : g = applyUnknown g2 := (Option.some_inj.mp h).symm
      have hprec := pre_precision iana timezone includeUpcoming now e g2 hp
      refine ⟨g2, rfl, hg, ?_, ?_⟩
      · constructor
        · intro hunk
          cases hcond : (g2.startDate == "" && g2.endDate == "") with
          | true =>
              have hand := Bool.and_eq_true_iff.mp hcond
              exact ⟨eq_of_beq hand.1, eq_of_beq hand.2⟩
          | false =>
              rw [hg, applyUnknown_skip g2 hcond] at hunk
              rcases hprec with hx | hx <;> rw [hunk] at hx <;> exact absurd hx (by decide)
        · intro ⟨h1, h2⟩
          have hcond : (g2.startDate == "" && g2.endDate == "") = true := by
            rw [h1, h2]; rfl
          rw [hg, applyUnknown_fire g2 hcond]
      · intro hunk
        cases hcond : (g2.startDate == "" && g2.endDate == "") with
        | true =>
            rw [hg, applyUnknown_fire g2 hcond]
            exact ⟨rfl, rfl⟩
        | false =>
            rw [hg, applyUnknown_skip g2 hcond] at hunk
            rcases hprec with hx | hx <;> rw [hunk] at hx <;> exact absurd hx (by decide)

def exC6 : Element :=
  { promotions :=
      { promotionalOffers :=
          [{ promotionalOffers :=
               [{ startDate := "", endDate := "",
                  discountSetting :=
                    { discountType := "PERCENTAGE", discountPercentage := 100 } }] }] } }

def gC6 : Game :=
  { url := "https://store.epicgames.com/en-US/p/", status := "free",
    startDate := "Unknown", endDate := "Unknown", datePrecision := "unknown" }

/-- Witness for C6 at a concrete input whose promotion dates are all
empty: the emitted record has unknown precision and Unknown dates. -/
theorem unknown_precision_iff_witness :
    ∃ g2, processElementPre (fun _ => none) "UTC" true 0 exC6 = some g2 ∧
      gC6 = applyUnknown g2 ∧
      (gC6.datePrecision = "unknown" ↔ (g2.startDate = "" ∧ g2.endDate = "")) ∧
      (gC6.datePrecision = "unknown" → gC6.startDate = "Unknown" ∧ gC6.endDate = "Unknown") :=
  unknown_precision_iff (fun _ => none) "UTC" true 0 exC6 gC6 (by decide)

/-! ### Claim C7 -/

/-- Spec-side definition following the words of the claim: a remainder is a
valid signed integer when it consists of an optional sign followed by one
or more digits and nothing else. -/
def isValidSignedIntString (s : String) : Bool :=
  match s.data with
  | '+' :: rest => !rest.isEmpty && rest.all Char.isDigit
  | '-' :: rest => !rest.isEmpty && rest.all Char.isDigit
  | l => !l.isEmpty && l.all Char.isDigit

/-- Counterexample to C7 as stated: for the unrecognized zone UTC+3abc the
remainder +3abc is not a valid signed integer, so the claim predicts the
UTC+8 fallback; the scanning verb instead accepts the leading +3 and the
code yields a fixed three hour zone. -/
theorem timezone_resolution_cex :
    isValidSignedIntString (trimPre (trimPre "UTC+3abc" "UTC") "GMT") = false ∧
    resolveLocation (fun _ => none) "UTC+3abc" =
      { name := "UTC+3abc", offsetSeconds := 10800 } ∧
    resolveLocation (fun _ => none) "UTC+3abc" ≠ utc8Zone := by
  decide

/-- C7 (amended): timezone resolution is total and never fails: an entry
of the zone database is used as is; otherwise, for a string starting with
UTC or GMT, an empty remainder after trimming yields the zero offset, a
remainder from which the scanning verb extracts a leading signed integer h
within the signed 64-bit range yields a fixed zone of h*3600 seconds even
when trailing characters follow the digits, and a remainder with no
scannable leading integer, or whose scanned value overflows the 64-bit
range (a Sscanf range error), yields the fixed UTC+8 fallback; any other
unrecognized string yields the UTC+8 fallback. -/
theorem timezone_resolution (iana : String → Option Location) (timezone : String) :
    (∀ loc, iana timezone = some loc → resolveLocation iana timezone = loc) ∧
    (iana timezone = none →
      ((strStartsWith timezone "UTC" || strStartsWith timezone "GMT") = false →
        resolveLocation iana timezone = utc8Zone) ∧
      ((strStartsWith timezone "UTC" || strStartsWith timezone "GMT") = true →
        (trimPre (trimPre timezone "UTC") "GMT" = "" →
          resolveLocation iana timezone = { name := "UTC", offsetSeconds := 0 }) ∧
        (∀ hrs, trimPre (trimPre timezone "UTC") "GMT" ≠ "" →
          scanIntFromStart (trimPre (trimPre timezone "UTC") "GMT") = some hrs →
          resolveLocation iana timezone =
            { name := timezone, offsetSeconds := hrs * 60 * 60 }) ∧
        (trimPre (trimPre timezone "UTC") "GMT" ≠ "" →
          scanIntFromStart (trimPre (trimPre timezone "UTC") "GMT") = none →
          resolveLocation iana timezone = utc8Zone))) := by
  constructor
  · intro loc hl
    simp only [resolveLocation, hl]
  · intro hn
    refine ⟨?_, ?_⟩
    · intro hs
      simp only [resolveLocation, hn, hs]
      rfl
    · intro hs
      refine ⟨?_, ?_, ?_⟩
      · intro hempty
        have hbeq : (trimPre (trimPre timezone "UTC") "GMT" == "") = true := by
          rw [hempty]; rfl
        simp only [resolveLocation, hn, hs, hbeq]
        rfl
      · intro hrs hne hscan
        have hbeq : (trimPre (trimPre timezone "UTC") "GMT" == "") = false :=
          beq_eq_false_iff_ne.mpr hne
        simp only [resolveLocation, hn, hs, hbeq, hscan]
        rfl
      · intro hne hscan
        have hbeq : (trimPre (trimPre timezone "UTC") "GMT" == "") = false :=
          beq_eq_false_iff_ne.mpr hne
        simp only [resolveLocation, hn, hs, hbeq, hscan]
        rfl

/-- Witness for the amended C7 at concrete inputs: UTC+3 yields a fixed
three hour offset, Mars/Phobos yields the UTC+8 fallback, and a digit run
overflowing the 64-bit range is a scan failure that also yields the UTC+8
fallback. -/
theorem timezone_resolution_witness :
    resolveLocation (fun _ => none) "UTC+3" = { name := "UTC+3", offsetSeconds := 10800 } ∧
    resolveLocation (fun _ => none) "Mars/Phobos" = utc8Zone ∧
    resolveLocation (fun _ => none) "UTC+99999999999999999999" = utc8Zone :=
  ⟨((((timezone_resolution (fun _ => none) "UTC+3").2 rfl).2 (by decide)).2.1) 3
      (by decide) (by decide),
   (((timezone_resolution (fun _ => none) "Mars/Phobos").2 rfl).1) (by decide),
   ((((timezone_resolution (fun _ => none) "UTC+99999999999999999999").2 rfl).2
      (by decide)).2.2) (by decide) (by decide)⟩

/-! ### Claim C8 -/

theorem stepCurrent_snd_url (fd : String → String) (g0 : Game) (groups : List OfferGroup) :
    (stepCurrent fd g0 groups).2.url = g0.url := by
  rcases stepCurrent_cases fd g0 groups with hc | ⟨p, hc⟩
  · rw [hc]
  · rw [hc]; rfl

theorem stepUpcoming_snd_url (fd : String → String) (icf inc : Bool) (g1 : Game)
    (groups : List OfferGroup) :
    (stepUpcoming fd icf inc g1 groups).2.url = g1.url := by
  rcases stepUpcoming_cases fd icf inc g1 groups with hc | ⟨p, hc⟩
  · rw [hc]
  · rw [hc]; rfl

theorem stepPrice_url (iana : String → Option Location) (timezone : String) (now : Int)
    (icf huf : Bool) (price : String) (g2 g3 : Game)
    (h : stepPrice iana timezone now icf huf price g2 = some g3) :
    g3.url = g2.url := by
  rcases stepPrice_cases _ _ _ _ _ _ _ _ h with ⟨_, _, _, hrec⟩ | ⟨heq, _⟩
  · rw [hrec]
  · rw [heq]

theorem stepEnd_url (fd : String → String) (groups : List OfferGroup) (inc : Bool)
    (osp : Option Game) (g2 : Game) (u : String)
    (hosp : ∀ g3, osp = some g3 → g3.url = u)
    (h : stepEnd fd groups inc osp = some g2) : g2.url = u := by
  cases osp with
  | none => simp [stepEnd] at h
  | some g3 =>
      simp only [stepEnd] at h
      cases hfl : stepFilter inc g3 with
      | none => rw [hfl] at h; cases h
      | some g4 =>
          rw [hfl] at h
          have hg4 : g4 = g3 := stepFilter_some inc g3 g4 hfl
          have hg2 : g2 = applyFallback fd groups g4 := (Option.some_inj.mp h).symm
          rw [hg2, applyFallback_url, hg4]
          exact hosp g3 rfl

theorem pre_url (iana : String → Option Location) (timezone : String)
    (includeUpcoming : Bool) (now : Int) (e : Element) (g2 : Game)
    (h : processElementPre iana timezone includeUpcoming now e = some g2) :
    g2.url = (initGame e).url := by
  simp only [processElementPre] at h
  refine stepEnd_url (formatDate iana timezone) e.promotions.promotionalOffers
    includeUpcoming _ g2 _ ?_ h
  intro g3 hg3
  rw [stepPrice_url _ _ _ _ _ _ _ _ hg3, stepUpcoming_snd_url, stepCurrent_snd_url]

theorem processElement_url (iana : String → Option Location) (timezone : String)
    (includeUpcoming : Bool) (now : Int) (e : Element) (g : Game)
    (h : processElement iana timezone includeUpcoming now e = some g) :
    g.url = (initGame e).url := by
  simp only [processElement] at h
  cases hp : processElementPre iana timezone includeUpcoming now e with
  | none => rw [hp] at h; cases h
  | some g2 =>
      rw [hp] at h
      have hg : g = applyUnknown g2 := (Option.some_inj.mp h).symm
      rw [hg, applyUnknown_url]
      exact pre_url iana timezone includeUpcoming now e g2 hp

theorem firstNonEmptySlug_eq_find (l : List Mapping) :
    firstNonEmptySlug l =
      match l.find? (fun m => m.pageSlug != "") with
      | some m => m.pageSlug
      | none => "" := by
  induction l with
  | nil => rfl
  | cons m rest ih =>
      rw [List.find?_cons]
      cases hp : (fun m => m.pageSlug != "") m with
      | true =>
          simp only [firstNonEmptySlug]
          have hp2 : (m.pageSlug != "") = true := hp
          rw [hp2]
          rfl
      | false =>
          simp only [firstNonEmptySlug]
          have hp2 : (m.pageSlug != "") = false := hp
          rw [hp2]
          simp only [Bool.false_eq_true, if_false]
          exact ih

theorem resolvePageSlug_eq_find (e : Element) :
    resolvePageSlug e =
      match e.offerMappings.find? (fun m => m.pageSlug != "") with
      | some m => m.pageSlug
      | none =>
          match e.catalogNs.mappings.find? (fun m => m.pageSlug != "") with
          | some m => m.pageSlug
          | none => "" := by
  unfold resolvePageSlug
  have hoff : (if 0 < e.offerMappings.length
      then firstNonEmptySlug e.offerMappings else "") = firstNonEmptySlug e.offerMappings := by
    by_cases h : 0 < e.offerMappings.length
    · rw [if_pos h]
    · rw [if_neg h, length_pos_not _ _ h]; rfl
  rw [hoff, firstNonEmptySlug_eq_find]
  cases hf : e.offerMappings.find? (fun m => m.pageSlug != "") with
  | some m =>
      have hm0 := List.find?_some hf
      have hm : (m.pageSlug != "") = true := hm0
      have hm2 : (m.pageSlug == "") = false := by
        revert hm
        cases hx : (m.pageSlug == "") <;> simp [bne, hx]
      simp only [hm2, Bool.false_and, Bool.false_eq_true, if_false]
  | none =>
      by_cases hl : 0 < e.catalogNs.mappings.length
      · simp [hl, firstNonEmptySlug_eq_find]
      · rw [length_pos_not _ _ hl]
        simp

/-- C8: the canonical url of every emitted record substitutes into the
fixed base path the first non-empty pageSlug of the offer-mappings list in
order, else the first non-empty pageSlug of the catalog-mappings list in
order, else the empty slug; an empty slug is not an error and leaves a url
ending in an empty trailing segment. -/
theorem url_resolution (iana : String → Option Location) (timezone : String)
    (includeUpcoming : Bool) (now : Int) (e : Element) (g : Game)
    (h : processElement iana timezone includeUpcoming now e = some g) :
    g.url = urlBase ++
      (match e.offerMappings.find? (fun m => m.pageSlug != "") with
       | some m => m.pageSlug
       | none =>
           match e.catalogNs.mappings.find? (fun m => m.pageSlug != "") with
           | some m => m.pageSlug
           | none => "") := by
  rw [processElement_url iana timezone includeUpcoming now e g h]
  show urlBase ++ resolvePageSlug e = _
  rw [resolvePageSlug_eq_find]

def exC8 : Element :=
  { catalogNs := { mappings := [{ pageSlug := "foo", pageType := "productHome" }] },
    price := { totalPrice := { fmtPrice := { discountPrice := "" } } } }

def gC8 : Game :=
  { url := "https://store.epicgames.com/en-US/p/foo", status := "free",
    startDate := "1970-01-01 08:00:00 UTC+8", endDate := "1970-01-08 08:00:00 UTC+8",
    datePrecision := "estimated" }

/-- Witness for C8 at a concrete input with an empty offer-mapping list
and one catalog mapping: the url ends in the catalog slug. -/
theorem url_resolution_witness :
    gC8.url = urlBase ++ "foo" :=
  url_resolution (fun _ => none) "UTC" true 0 exC8 gC8 (by decide)

/-! ### Claim C9 -/

/-- C9: the notification builder sends nothing for an empty record list;
otherwise the payload holds exactly the first min(length, ten) records as
cards, in input order, and every record beyond the tenth is silently
dropped. -/
theorem webhook_limit (nowStr : String) (games : List Game) :
    (games = [] → buildWebhookMessage nowStr games = none) ∧
    (games ≠ [] → ∃ msg, buildWebhookMessage nowStr games = some msg ∧
      msg.embeds = (games.take 10).map (createGameEmbed nowStr) ∧
      msg.embeds.length = min games.length 10) := by
  constructor
  · intro h
    rw [h]
    rfl
  · intro h
    have hlen : (games.length == 0) = false := by
      cases games with
      | nil => exact absurd rfl h
      | cons a t => rfl
    refine ⟨{ content := "🎮 Free Games from Epic Games Store 🎮",
              embeds := (games.take 10).map (createGameEmbed nowStr) }, ?_, rfl, ?_⟩
    · simp only [buildWebhookMessage, hlen, Bool.false_eq_true, if_false]
    · simp only [List.length_map, List.length_take]
      exact Nat.min_comm _ _

def gms12 : List Game := List.replicate 12 {}

/-- Witness for C9 at a concrete input of twelve records: a message is
built and it carries exactly ten cards. -/
theorem webhook_limit_witness :
    ∃ msg, buildWebhookMessage "ts" gms12 = some msg ∧
      msg.embeds = (gms12.take 10).map (createGameEmbed "ts") ∧
      msg.embeds.length = min gms12.length 10 ∧ msg.embeds.length = 10 := by
  obtain ⟨msg, h1, h2, h3⟩ := (webhook_limit "ts" gms12).2 (by decide)
  exact ⟨msg, h1, h2, h3, by rw [h3]; decide⟩

/-! ### Claim C10 -/

def exC10 : Element :=
  { promotions :=
      { promotionalOffers :=
          [{ promotionalOffers :=
               [{ startDate := "", endDate := "2025-01-08T00:00:00Z",
                  discountSetting :=
                    { discountType := "PERCENTAGE", discountPercentage := 100 } }] }] } }

def gC10 : Game :=
  { url := "https://store.epicgames.com/en-US/p/", status := "free",
    startDate := "", endDate := "2025-01-08 00:00:00 UTC", datePrecision := "exact" }

/-- C10: there is an input whose emitted record has exactly one empty date
field: with an authoritative sub-offer holding an empty start and a
non-empty end date, DateFormatter returns the empty string unchanged,
neither the fallback stage nor the Unknown guard fires since each requires
both dates empty, and the record is emitted with exact precision. -/
theorem single_empty_date_exists :
    formatDate (fun _ => none) "UTC" "" = "" ∧
    processElement (fun _ => none) "UTC" true 0 exC10 = some gC10 ∧
    gC10.startDate = "" ∧ gC10.endDate ≠ "" ∧ gC10.datePrecision = "exact" := by
  decide

end EpicFree
